import Mathlib

/-!
Verification of the predictgender lexical scoring engine.

The repository ships several historical versions of the same library.  The
claims under examination point into three of them:

* v0.5.0  (`src/index.js`, second half): options object, n-grams,
  `getMatches` / `calcLex` / `prepareMatches` / `sortByUse`;
* v0.6.3  (`src/unnamed/part_003`, first half): adds `places` rounding and
  `min` / `max` weight thresholds (`getMatches` / `calcLex` / `prepareMatches`
  / `sortArrBy`);
* v1.0.0-rc.1 (`src/unnamed/part_002`, second half): output dispatch of
  `predictGender` (the match engine and scorer live in the external
  `lex-helpers` package there).

The tokenizer (`happynodetokenizer`) and n-gram generator (`simplengrams`)
are external collaborators: the embedding takes the unigram token list and
the bigram / trigram string lists as inputs.  A tokenizer result of `null`
is modelled by `Option.none`.  JavaScript numbers are embedded as `ℚ`
(the programs only add, multiply and divide lexicon weights); note that in
`ℚ` division by zero yields `0` whereas JS yields `±Infinity` — every
theorem below that divides by a word count either assumes the count is
positive or only ever divides inside a loop that does not execute, so the
embedding is faithful on the inputs the theorems speak about.
-/

namespace PredictGender

/-- A lexicon: category → (term → weight), in insertion order.  JS object
keys are unique; theorems that need this take a `Nodup` hypothesis. -/
abbrev Lexicon := List (String × List (String × ℚ))

/-- JS falsy-`or` defaulting `x || dflt` for a boolean option.  An omitted
option (`none`, i.e. `undefined`) and `false` are both falsy. -/
def orDefaultB (x : Option Bool) (dflt : Bool) : Bool :=
  match x with
  | none => dflt
  | some b => if b then b else dflt

/-- JS falsy-`or` defaulting `x || dflt` for a numeric option; `0` is falsy. -/
def orDefaultQ (x : Option ℚ) (dflt : ℚ) : ℚ :=
  match x with
  | none => dflt
  | some q => if q = 0 then dflt else q

/-- JS falsy-`or` defaulting `x || dflt` for a natural-number option. -/
def orDefaultN (x : Option ℕ) (dflt : ℕ) : ℕ :=
  match x with
  | none => dflt
  | some n => if n = 0 then dflt else n

/-- JS falsy-`or` defaulting `x || dflt` for a string option; `""` is falsy. -/
def orDefaultS (x : Option String) (dflt : String) : String :=
  match x with
  | none => dflt
  | some s => if s = "" then dflt else s

/-- JS truthiness of a possibly-absent boolean (`if (opts.nGrams)`). -/
def truthy (x : Option Bool) : Bool := x.getD false

/-- `Number(q.toFixed(p))`: rounding to `p` decimal places, idealized to
exact rational arithmetic (ties round toward `+∞`; JS resolves ties through
the binary float64 representation, which no claim depends on). -/
def toFixedQ (p : ℕ) (q : ℚ) : ℚ :=
  (⌊q * 10 ^ p + 1 / 2⌋ : ℚ) / 10 ^ p

/-- The GENDER intercept constant `-0.06724152` hard-coded in every version. -/
def interceptGENDER : ℚ := -0.06724152

/-- Loop of `indexesOf`: walks `i-1, i-2, …, 0` and prepends (`unshift`)
each index whose element is `el`, exactly as the JS
`while (i--) { if (arr[i] === el) idxs.unshift(i) }`. -/
def indexesOfGo (arr : List String) (el : String) : ℕ → List ℕ → List ℕ
  | 0, idxs => idxs
  | i + 1, idxs => indexesOfGo arr el i (if arr.get? i = some el then i :: idxs else idxs)

/-- `indexesOf(arr, el)` — the ascending list of indexes at which `el`
occurs in `arr` (identical in v0.4.0, v0.5.0 and v0.6.3). -/
def indexesOf (arr : List String) (el : String) : List ℕ :=
  indexesOfGo arr el arr.length []

namespace V050

/-- One row of the v0.5.0 `matches` output:
`[word, freq, weight, total, lex]` (`prepareMatches`, `src/index.js:317-326`). -/
structure Row where
  word : String
  freq : ℕ
  weight : ℚ
  total : ℚ
  lex : ℚ
deriving DecidableEq, Repr

/-- Possible return values of the v0.5.0 `predictGender`. -/
inductive Out where
  | str : String → Out
  | num : ℚ → Out
  | matches : List Row → Out
deriving DecidableEq, Repr

/-- The v0.5.0 options object; `none` models an absent (`undefined`) field. -/
structure Opts where
  ret : Option String := none
  sortBy : Option String := none
  wcGrams : Option Bool := none
  nGrams : Option Bool := none
deriving Repr

/-- The literal defaults object installed when `opts == null`
(`src/index.js:397-404`). -/
def defaultOpts : Opts :=
  { ret := some "gender", nGrams := some true, wcGrams := some false,
    sortBy := some "total" }

/-- Inner loop of the v0.5.0 `getMatches` for one category: every lexicon
word occurring in the token array yields a `[word, reps, weight]` item
(`src/index.js:343-354`). -/
def categoryMatches (arr : List String) (data : List (String × ℚ)) :
    List (String × ℕ × ℚ) :=
  data.filterMap fun wd =>
    if arr.contains wd.1 then
      some (wd.1, (indexesOf arr wd.1).length, wd.2)
    else none

/-- v0.5.0 `getMatches(arr, lexicon)`: each category (in lexicon order) is
assigned its match list, empty or not (`src/index.js:335-359`). -/
def getMatches (arr : List String) (lexicon : Lexicon) :
    List (String × List (String × ℕ × ℚ)) :=
  lexicon.map fun cd => (cd.1, categoryMatches arr cd.2)

/-- v0.5.0 `calcLex(obj, wc, int)`: `Σ (reps / wc) * weight`, then `+ int`
(`src/index.js:369-381`). -/
def calcLex (obj : List (String × ℕ × ℚ)) (wc : ℚ) (int : ℚ) : ℚ :=
  (obj.map fun it => ((it.2.1 : ℚ) / wc) * it.2.2).sum + int

/-- The sort column picked by v0.5.0 `sortByUse`: 1 = freq, 2 = weight,
3 = total, anything else = 4 = lex. -/
def colVal (x : ℕ) (r : Row) : ℚ :=
  if x = 1 then (r.freq : ℚ) else if x = 2 then r.weight
  else if x = 3 then r.total else r.lex

/-- v0.5.0 `sortByUse(arr, by)` (`src/index.js:294-307`): stable ascending
sort by the chosen column (JS `Array.prototype.sort` with comparator
`a[x] - b[x]` is a stable sort, so insertion sort is observationally
identical). -/
def sortByUse (arr : List Row) (sortKey : String) : List Row :=
  let x : ℕ :=
    if sortKey = "total" then 3
    else if sortKey = "weight" then 2
    else if sortKey = "freq" then 1
    else 4
  arr.insertionSort (fun a b => colVal x a ≤ colVal x b)

/-- v0.5.0 `prepareMatches(obj, by, wc)` (`src/index.js:317-326`): each
match item `[word, reps, weight]` becomes
`[word, reps, weight, reps * weight, (reps / wc) * weight]`, then the rows
are sorted. -/
def prepareMatches (obj : List (String × ℕ × ℚ)) (sortKey : String) (wc : ℕ) :
    List Row :=
  sortByUse
    (obj.map fun it =>
      { word := it.1, freq := it.2.1, weight := it.2.2,
        total := (it.2.1 : ℚ) * it.2.2,
        lex := ((it.2.1 : ℚ) / (wc : ℚ)) * it.2.2 })
    sortKey

/-- The score-to-gender mapping at the end of the v0.5.0 `predictGender`
(`src/index.js:436-446`): `lex < 0 → Male / -1`, `lex > 0 → Female / 1`,
otherwise `Unknown / 0`; the string is produced when `ret === 'gender'`. -/
def genderOut (ret : String) (lex : ℚ) : Out :=
  if lex < 0 then (if ret = "gender" then .str "Male" else .num (-1))
  else if lex > 0 then (if ret = "gender" then .str "Female" else .num 1)
  else (if ret = "gender" then .str "Unknown" else .num 0)

/-- v0.5.0 `predictGender` (`src/index.js:389-447`) from the tokenizer
output onwards.  `tokens?` is the tokenizer result (`none` = `null`),
`bigrams` / `trigrams` the `arr2string(simplengrams(str, 2 / 3))` outputs. -/
def predictGender (tokens? : Option (List String))
    (bigrams trigrams : List String) (lexicon : Lexicon)
    (opts? : Option Opts) : Out :=
  let opts := opts?.getD defaultOpts
  let ret := orDefaultS opts.ret "gender"
  let sortKey := orDefaultS opts.sortBy "total"
  let wcGrams := orDefaultB opts.wcGrams false
  match tokens? with
  | none => if ret = "gender" then .str "Unknown" else .num 0
  | some tokens0 =>
    let wordcount0 := tokens0.length
    let tokens := if truthy opts.nGrams then tokens0 ++ bigrams ++ trigrams else tokens0
    let wordcount := if wcGrams then tokens.length else wordcount0
    let gmatches := ((getMatches tokens lexicon).lookup "GENDER").getD []
    if ret = "matches" then .matches (prepareMatches gmatches sortKey wordcount)
    else
      let lex := calcLex gmatches (wordcount : ℚ) interceptGENDER
      if ret = "lex" then .num lex
      else genderOut ret lex

end V050

namespace V063

/-- One row of the v0.6.3 `matches` output: `[word, freq, weight, lex]`
(`src/unnamed/part_003:127-136`; v0.6.3 dropped the `total` column). -/
structure Row where
  word : String
  freq : ℕ
  weight : ℚ
  lex : ℚ
deriving DecidableEq, Repr

/-- Possible return values of the v0.6.3 `predictGender`. -/
inductive Out where
  | str : String → Out
  | num : ℚ → Out
  | matches : List Row → Out
deriving DecidableEq, Repr

/-- The v0.6.3 options object; `none` models an absent (`undefined`) field. -/
structure Opts where
  output : Option String := none
  sortBy : Option String := none
  nGrams : Option Bool := none
  wcGrams : Option Bool := none
  places : Option ℕ := none
  max : Option ℚ := none
  min : Option ℚ := none
deriving Repr

/-- The literal defaults object installed when `!opts`
(`src/unnamed/part_003:214-224`). -/
def defaultOpts : Opts :=
  { output := some "gender", nGrams := some true, wcGrams := some false,
    sortBy := some "lex", places := some 16, max := some 99,
    min := some (-99) }

/-- The effective option values after the falsy-`or` defaulting block
(`src/unnamed/part_003:225-231`). -/
structure EffOpts where
  output : String
  sortBy : String
  nGrams : Bool
  wcGrams : Bool
  places : ℕ
  max : ℚ
  min : ℚ
deriving Repr

/-- v0.6.3 option defaulting: `opts.x = opts.x || dflt` applied field by
field (`src/unnamed/part_003:213-231`). -/
def effOpts (opts? : Option Opts) : EffOpts :=
  let opts := opts?.getD defaultOpts
  { output := orDefaultS opts.output "gender"
    sortBy := orDefaultS opts.sortBy "lex"
    nGrams := orDefaultB opts.nGrams true
    wcGrams := orDefaultB opts.wcGrams false
    places := orDefaultN opts.places 16
    max := orDefaultQ opts.max 99
    min := orDefaultQ opts.min (-99) }

/-- Inner loop of the v0.6.3 `getMatches` for one category
(`src/unnamed/part_003:158-170`): a lexicon word occurring in the token
array is recorded iff its `toFixed(places)`-rounded weight satisfies
`weight < max && weight > min`. -/
def getMatchesCat (arr : List String) (data : List (String × ℚ))
    (places : ℕ) (mn mx : ℚ) : List (String × ℕ × ℚ) :=
  data.filterMap fun wd =>
    if arr.contains wd.1 then
      let weight := toFixedQ places wd.2
      if weight < mx ∧ mn < weight then
        some (wd.1, (indexesOf arr wd.1).length, weight)
      else none
    else none

/-- v0.6.3 `getMatches(arr, lexicon, places, min, max)`
(`src/unnamed/part_003:148-175`). -/
def getMatches (arr : List String) (lexicon : Lexicon) (places : ℕ)
    (mn mx : ℚ) : List (String × List (String × ℕ × ℚ)) :=
  lexicon.map fun cd => (cd.1, getMatchesCat arr cd.2 places mn mx)

/-- The sort column picked by v0.6.3 `sortArrBy`: 1 = freq, 2 = weight,
anything else = 3 = lex. -/
def colVal (x : ℕ) (r : Row) : ℚ :=
  if x = 1 then (r.freq : ℚ) else if x = 2 then r.weight else r.lex

/-- v0.6.3 `sortArrBy(arr, by)` (`src/unnamed/part_003:105-116`), modelled
by a stable sort as for v0.5.0 `sortByUse`. -/
def sortArrBy (arr : List Row) (sortKey : String) : List Row :=
  let x : ℕ := if sortKey = "weight" then 2 else if sortKey = "freq" then 1 else 3
  arr.insertionSort (fun a b => colVal x a ≤ colVal x b)

/-- v0.6.3 `prepareMatches(obj, by, wc, places)`
(`src/unnamed/part_003:127-136`). -/
def prepareMatches (obj : List (String × ℕ × ℚ)) (sortKey : String)
    (wc : ℕ) (places : ℕ) : List Row :=
  sortArrBy
    (obj.map fun it =>
      { word := it.1, freq := it.2.1, weight := it.2.2,
        lex := toFixedQ places (((it.2.1 : ℚ) / (wc : ℚ)) * it.2.2) })
    sortKey

/-- v0.6.3 `calcLex(obj, wc, int, places)`
(`src/unnamed/part_003:186-198`). -/
def calcLex (obj : List (String × ℕ × ℚ)) (wc : ℚ) (int : ℚ)
    (places : ℕ) : ℚ :=
  toFixedQ places ((obj.map fun it => ((it.2.1 : ℚ) / wc) * it.2.2).sum + int)

/-- The score-to-gender mapping at the end of the v0.6.3 `predictGender`
(`src/unnamed/part_003:260-267`). -/
def genderOut (output : String) (lex : ℚ) : Out :=
  if lex < 0 then (if output = "gender" then .str "Male" else .num (-1))
  else if lex > 0 then (if output = "gender" then .str "Female" else .num 1)
  else (if output = "gender" then .str "Unknown" else .num 0)

/-- v0.6.3 `predictGender` (`src/unnamed/part_003:206-270`) from the
tokenizer output onwards. -/
def predictGender (tokens? : Option (List String))
    (bigrams trigrams : List String) (lexicon : Lexicon)
    (opts? : Option Opts) : Out :=
  let e := effOpts opts?
  match tokens? with
  | none => if e.output = "gender" then .str "Unknown" else .num 0
  | some tokens0 =>
    let wordcount0 := tokens0.length
    let tokens := if e.nGrams then tokens0 ++ bigrams ++ trigrams else tokens0
    let wordcount := if e.wcGrams then tokens.length else wordcount0
    let gmatches :=
      ((getMatches tokens lexicon e.places e.min e.max).lookup "GENDER").getD []
    if e.output = "matches" then
      .matches (prepareMatches gmatches e.sortBy wordcount e.places)
    else
      let lex := calcLex gmatches (wordcount : ℚ) interceptGENDER e.places
      if e.output = "lex" then .num lex
      else genderOut e.output lex

end V063

namespace V1RC

/-- Possible return values of the v1.0.0-rc.1 `predictGender`.  The
`full` shape is the object `{number: gender, lex: lex, matches: rows}`;
its `number` field holds the gender value, which the code stores as either
a string or a number. -/
inductive Out where
  | str : String → Out
  | num : ℚ → Out
  | matches : List V050.Row → Out
  | full : Out → ℚ → List V050.Row → Out
deriving DecidableEq, Repr

/-- The gender value computed at `src/unnamed/part_002:383-390`:
a label string when `output === 'gender'`, a signed code otherwise. -/
def genderVal (output : String) (lex : ℚ) : Out :=
  if lex < 0 then (if output = "gender" then .str "Male" else .num (-1))
  else if lex > 0 then (if output = "gender" then .str "Female" else .num 1)
  else (if output = "gender" then .str "Unknown" else .num 0)

/-- The output dispatch of the v1.0.0-rc.1 `predictGender`
(`src/unnamed/part_002:374-409`), taking the prepared match rows and the
computed lexical value as inputs (both are produced by the external
`lex-helpers` collaborator in this version): `'matches'` returns the rows,
`'lex'` the score, `'full'` the composite, and anything else — including
every unrecognized string — the gender value. -/
def formatOut (rows : List V050.Row) (lex : ℚ) (output : String) : Out :=
  if output = "matches" then .matches rows
  else
    let gender := genderVal output lex
    if output = "lex" then .num lex
    else if output = "full" then .full gender lex rows
    else gender

/-- The default output mode of v1.0.0-rc.1:
`opts.output = opts.output || 'gender'` (`src/unnamed/part_002:348`). -/
def defaultOutput : String := orDefaultS none "gender"

end V1RC

/-! Helper lemmas. -/

/-- Unfolding the `indexesOf` loop: it prepends, in descending order of
`i`, every index below `i` whose element is `el`. -/
theorem indexesOfGo_eq (arr : List String) (el : String) :
    ∀ (i : ℕ) (idxs : List ℕ),
      indexesOfGo arr el i idxs
        = ((List.range i).filter fun j => arr.get? j = some el) ++ idxs := by
  intro i
  induction i with
  | zero => intro idxs; simp [indexesOfGo]
  | succ n ih =>
    intro idxs
    rw [indexesOfGo, ih, List.range_succ, List.filter_append]
    by_cases h : arr.get? n = some el <;>
      simp [h, List.get?_eq_getElem?, List.filter_singleton] <;>
      simp [List.get?_eq_getElem?] at h <;> simp [h]

/-- Counting the in-range indexes pointing at `el` counts the occurrences
of `el`. -/
theorem length_filter_range_count (arr : List String) (el : String) :
    (((List.range arr.length).filter fun j => arr.get? j = some el)).length
      = arr.count el := by
  induction arr using List.reverseRecOn with
  | nil => simp
  | append_singleton l a ih =>
    rw [List.length_append, List.length_singleton, List.range_succ,
      List.filter_append, List.length_append, List.count_append]
    have h1 : ((List.range l.length).filter fun j => (l ++ [a]).get? j = some el)
        = (List.range l.length).filter fun j => l.get? j = some el := by
      apply List.filter_congr
      intro j hj
      rw [List.get?_append (List.mem_range.mp hj)]
    have h2 : (l ++ [a]).get? l.length = some a := List.get?_concat_length l a
    rw [h1, ih]
    by_cases h : a = el <;> simp [List.filter, h2, h, List.count_singleton]

/-- The length of the v0.5.0 / v0.6.3 `indexesOf` output is the number of
occurrences of the element — the `reps` computed by `getMatches`. -/
theorem length_indexesOf (arr : List String) (el : String) :
    (indexesOf arr el).length = arr.count el := by
  rw [indexesOf, indexesOfGo_eq, List.append_nil, length_filter_range_count]

/-- JS `x || true` is always `true`, whatever `x` is. -/
theorem orDefaultB_true (x : Option Bool) : orDefaultB x true = true := by
  rcases x with _ | b
  · rfl
  · cases b <;> rfl

/-- Every row emitted by the v0.5.0 `prepareMatches` carries
`total = freq * weight` and `lex = (freq / wc) * weight`. -/
theorem prepareMatches_fields (obj : List (String × ℕ × ℚ)) (sortKey : String)
    (wc : ℕ) :
    ∀ r ∈ V050.prepareMatches obj sortKey wc,
      r.total = (r.freq : ℚ) * r.weight ∧
        r.lex = ((r.freq : ℚ) / (wc : ℚ)) * r.weight := by
  intro r hr
  rw [V050.prepareMatches, V050.sortByUse] at hr
  have hmem := (List.perm_insertionSort _ _).mem_iff.mp hr
  rcases List.mem_map.mp hmem with ⟨it, _, rfl⟩
  exact ⟨rfl, rfl⟩

/-- `sortByUse` with key `"total"` sorts ascending by the `total` column. -/
theorem sortByUse_total_sorted (arr : List V050.Row) :
    (V050.sortByUse arr "total").Sorted fun a b => a.total ≤ b.total := by
  haveI : IsTotal V050.Row fun a b => V050.colVal 3 a ≤ V050.colVal 3 b :=
    ⟨fun a b => le_total _ _⟩
  haveI : IsTrans V050.Row fun a b => V050.colVal 3 a ≤ V050.colVal 3 b :=
    ⟨fun a b c => le_trans⟩
  have h := List.sorted_insertionSort
    (fun a b => V050.colVal 3 a ≤ V050.colVal 3 b) arr
  rw [V050.sortByUse]
  simp only [V050.colVal] at h ⊢
  norm_num at h ⊢
  exact h

/-- The v0.5.0 `prepareMatches` output under sort key `"total"` is also
ascending in the `lex` column, because `lex = total / wc` row-wise and the
word count is shared by all rows. -/
theorem prepare_total_sorted_lex (obj : List (String × ℕ × ℚ)) (wc : ℕ) :
    (V050.prepareMatches obj "total" wc).Sorted fun a b => a.lex ≤ b.lex := by
  have hs : (V050.prepareMatches obj "total" wc).Sorted
      fun a b => a.total ≤ b.total := sortByUse_total_sorted _
  have hf := prepareMatches_fields obj "total" wc
  refine hs.imp_of_mem fun {a b} ha hb hab => ?_
  have ha2 := hf a ha
  have hb2 := hf b hb
  have halex : a.lex = a.total / (wc : ℚ) := by
    rw [ha2.2, ha2.1, div_mul_eq_mul_div]
  have hblex : b.lex = b.total / (wc : ℚ) := by
    rw [hb2.2, hb2.1, div_mul_eq_mul_div]
  rw [halex, hblex]
  exact div_le_div_of_nonneg_right hab (Nat.cast_nonneg wc)

/-- Over a duplicate-free key list, summing the indicator of `a` picks out
whether `a` is a key. -/
theorem sum_ite_mem (a : String) :
    ∀ keys : List String, keys.Nodup →
      (keys.map fun w => if a = w then (1 : ℕ) else 0).sum
        = if keys.contains a then 1 else 0 := by
  intro keys
  induction keys with
  | nil => intro _; simp
  | cons w ks ih =>
    intro h
    rcases List.nodup_cons.mp h with ⟨hw, hks⟩
    by_cases haw : a = w
    · subst haw
      have hz : (ks.map fun w => if a = w then (1 : ℕ) else 0).sum = 0 := by
        apply List.sum_eq_zero
        intro x hx
        rcases List.mem_map.mp hx with ⟨k, hk, rfl⟩
        exact if_neg fun e => hw (by rw [e]; exact hk)
      simp [hz]
    · simp [haw, ih hks, List.contains_cons, Ne.symm haw]

/-- Summing per-key occurrence counts over a duplicate-free key list equals
counting the tokens that hit any key. -/
theorem count_filter_keys (arr : List String) :
    ∀ keys : List String, keys.Nodup →
      (keys.map fun w => arr.count w).sum
        = arr.countP fun t => keys.contains t := by
  induction arr with
  | nil => intro keys _; simp
  | cons a tl ih =>
    intro keys h
    have hsplit : (keys.map fun w => (a :: tl).count w).sum
        = (keys.map fun w => tl.count w).sum
          + (keys.map fun w => if a = w then (1 : ℕ) else 0).sum := by
      rw [← List.sum_map_add]
      congr 1
      apply List.map_congr_left
      intro w _
      rw [List.count_cons]
      simp [beq_iff_eq]
    rw [hsplit, ih keys h, sum_ite_mem a keys h, List.countP_cons]

/-- The total frequency recorded by the v0.5.0 per-category match loop is
the sum, over the category's terms, of their occurrence counts in the
token array. -/
theorem sum_freq_categoryMatches (arr : List String) :
    ∀ data : List (String × ℚ),
      ((V050.categoryMatches arr data).map fun rec => rec.2.1).sum
        = ((data.map Prod.fst).map fun w => arr.count w).sum := by
  intro data
  induction data with
  | nil => simp [V050.categoryMatches]
  | cons wd tl ih =>
    by_cases h : wd.1 ∈ arr
    · simp [V050.categoryMatches, List.filterMap_cons, h,
        length_indexesOf, Function.comp] at ih ⊢
      exact ih
    · have hz : arr.count wd.1 = 0 := List.count_eq_zero.mpr h
      simp [V050.categoryMatches, List.filterMap_cons, h, hz,
        Function.comp] at ih ⊢
      exact ih

/-! Claim theorems. -/

/-- Claim C1: for every score `s`, `s < 0` maps to the label `"Male"` and
the numeric code `-1`, `s > 0` to `"Female"` and `1`, and `s = 0` to
`"Unknown"` and `0`; the three cases are exhaustive and mutually
exclusive, so the v0.5.0 score-to-gender mapping (used by `predictGender`
for the `'gender'` and `'number'` output modes) returns exactly one of
these values. -/
theorem sign_contract (s : ℚ) :
    ((s < 0 ∧ V050.genderOut "gender" s = .str "Male" ∧
        V050.genderOut "number" s = .num (-1)) ∨
      (0 < s ∧ V050.genderOut "gender" s = .str "Female" ∧
        V050.genderOut "number" s = .num 1) ∨
      (s = 0 ∧ V050.genderOut "gender" s = .str "Unknown" ∧
        V050.genderOut "number" s = .num 0)) ∧
    ¬(s < 0 ∧ 0 < s) ∧ ¬(s < 0 ∧ s = 0) ∧ ¬(0 < s ∧ s = 0) := by
  refine ⟨?_, fun h => lt_asymm h.1 h.2,
    fun h => absurd h.1 (by rw [h.2]; exact lt_irrefl 0),
    fun h => absurd h.1 (by rw [h.2]; exact lt_irrefl 0)⟩
  rcases lt_trichotomy s 0 with h | h | h
  · exact Or.inl ⟨h, by simp [V050.genderOut, h], by simp [V050.genderOut, h]⟩
  · subst h
    exact Or.inr (Or.inr ⟨rfl, by simp [V050.genderOut],
      by simp [V050.genderOut]⟩)
  · exact Or.inr (Or.inl ⟨h, by simp [V050.genderOut, h, asymm h],
      by simp [V050.genderOut, h, asymm h]⟩)

/-- Claim C2 counterexample: the v0.5.0 `calcLex` on an empty match set
with wordcount 0 returns the intercept `-0.06724152`, which is not 0 —
the claimed neutral score does not come from the scorer. -/
theorem calcLex_empty_zero_wc_not_zero :
    V050.calcLex [] 0 interceptGENDER = interceptGENDER ∧
      interceptGENDER ≠ 0 := by
  constructor
  · simp [V050.calcLex]
  · norm_num [interceptGENDER]

/-- Claim C2 (amended): `calcLex` on an empty match set returns exactly
the intercept (its sum loop never runs, so no division is performed and
no floating-point exception can arise); `predictGender` produces the
`"Unknown"` / `0` result for tokenless input solely through its
null-token early return, which bypasses the scorer. -/
theorem calcLex_empty_eq_intercept :
    (∀ wc int, V050.calcLex [] wc int = int) ∧
    (∀ (bigrams trigrams : List String) (lexicon : Lexicon)
        (opts : V050.Opts),
      V050.predictGender none bigrams trigrams lexicon (some opts)
        = if orDefaultS opts.ret "gender" = "gender" then .str "Unknown"
          else .num 0) := by
  constructor
  · intro wc int
    simp [V050.calcLex]
  · intro bigrams trigrams lexicon opts
    rfl

/-- Claim C3: in the v0.5.0 match engine, every match record's frequency
equals the number of occurrences of its term in the (possibly
n-gram-expanded) token array, and — lexicon keys being unique — the
frequencies sum to the total number of lexicon-term occurrences in that
token array. -/
theorem matches_count_invariant (arr : List String)
    (data : List (String × ℚ)) (h : (data.map Prod.fst).Nodup) :
    (∀ rec ∈ V050.categoryMatches arr data, rec.2.1 = arr.count rec.1) ∧
    ((V050.categoryMatches arr data).map fun rec => rec.2.1).sum
      = arr.countP fun t => (data.map Prod.fst).contains t := by
  constructor
  · intro rec hrec
    rcases List.mem_filterMap.mp hrec with ⟨wd, _, hf⟩
    by_cases hc : wd.1 ∈ arr
    · simp [hc] at hf
      rw [← hf]
      exact length_indexesOf arr wd.1
    · simp [hc] at hf
  · rw [sum_freq_categoryMatches, count_filter_keys arr _ h]

/-- Claim C3 witness: the invariant instantiated on a concrete token
array and category. -/
theorem matches_count_invariant_witness :
    (([("hello", (2 : ℚ)), ("world", -4)].map Prod.fst).Nodup) ∧
    ((∀ rec ∈ V050.categoryMatches ["hello", "hello", "world", "hi"]
        [("hello", (2 : ℚ)), ("world", -4)],
      rec.2.1 = (["hello", "hello", "world", "hi"]).count rec.1) ∧
    ((V050.categoryMatches ["hello", "hello", "world", "hi"]
        [("hello", (2 : ℚ)), ("world", -4)]).map fun rec => rec.2.1).sum
      = (["hello", "hello", "world", "hi"]).countP
          fun t => ([("hello", (2 : ℚ)), ("world", -4)].map Prod.fst).contains t) :=
  ⟨by decide, matches_count_invariant _ _ (by decide)⟩

/-- Claim C4: in the v0.6.3 match engine a term enters the match set
under bounds `(min, max)` iff it occurs in the token array and its
(rounded) weight satisfies `min < weight < max`, strictly; consequently
narrowing the bounds only removes match records — the narrowed match set
is a subset of the original. -/
theorem threshold_membership_and_monotone (arr : List String)
    (data : List (String × ℚ)) (places : ℕ) (mn mx mn2 mx2 : ℚ)
    (hmn : mn ≤ mn2) (hmx : mx2 ≤ mx) :
    (∀ t : String,
      (∃ r w, (t, r, w) ∈ V063.getMatchesCat arr data places mn mx) ↔
        ∃ wt, (t, wt) ∈ data ∧ t ∈ arr ∧
          mn < toFixedQ places wt ∧ toFixedQ places wt < mx) ∧
    (∀ x ∈ V063.getMatchesCat arr data places mn2 mx2,
      x ∈ V063.getMatchesCat arr data places mn mx) := by
  constructor
  · intro t
    constructor
    · rintro ⟨r, w, hmem⟩
      rcases List.mem_filterMap.mp hmem with ⟨wd, hwd, hf⟩
      by_cases hc : wd.1 ∈ arr
      · simp [hc] at hf
        rcases hf with ⟨hb, ht, _, _⟩
        subst ht
        exact ⟨wd.2, by rw [Prod.mk.eta]; exact hwd, hc, hb.2, hb.1⟩
      · simp [hc] at hf
    · rintro ⟨wt, hwt, hc, h1, h2⟩
      refine ⟨(indexesOf arr t).length, toFixedQ places wt,
        List.mem_filterMap.mpr ⟨(t, wt), hwt, ?_⟩⟩
      simp [hc, h1, h2]
  · intro x hx
    rcases List.mem_filterMap.mp hx with ⟨wd, hwd, hf⟩
    by_cases hc : wd.1 ∈ arr
    · simp [hc] at hf
      rcases hf with ⟨hb, hx2⟩
      refine List.mem_filterMap.mpr ⟨wd, hwd, ?_⟩
      simp [hc]
      exact ⟨⟨lt_of_lt_of_le hb.1 hmx, lt_of_le_of_lt hmn hb.2⟩, hx2⟩
    · simp [hc] at hf

/-- Claim C4 witness: the membership characterization and the
bound-narrowing subset property at concrete bounds `(-99, 99)` narrowed
to `(-3, 3)`. -/
theorem threshold_membership_and_monotone_witness :
    ((-99 : ℚ) ≤ -3 ∧ (3 : ℚ) ≤ 99) ∧
    ((∀ t : String,
      (∃ r w, (t, r, w) ∈ V063.getMatchesCat ["hello", "world"]
          [("hello", (2 : ℚ)), ("world", -4)] 16 (-99) 99) ↔
        ∃ wt, (t, wt) ∈ [("hello", (2 : ℚ)), ("world", -4)] ∧
          t ∈ ["hello", "world"] ∧
          (-99 : ℚ) < toFixedQ 16 wt ∧ toFixedQ 16 wt < 99) ∧
    (∀ x ∈ V063.getMatchesCat ["hello", "world"]
        [("hello", (2 : ℚ)), ("world", -4)] 16 (-3) 3,
      x ∈ V063.getMatchesCat ["hello", "world"]
        [("hello", (2 : ℚ)), ("world", -4)] 16 (-99) 99)) :=
  ⟨by norm_num,
    threshold_membership_and_monotone _ _ 16 (-99) 99 (-3) 3
      (by norm_num) (by norm_num)⟩

/-- Claim C8: every row of the v0.5.0 `matches` output has consistent
derived columns — `total = freq * weight` and
`lex = (freq / wordcount) * weight`. -/
theorem prepareMatches_row_consistency (obj : List (String × ℕ × ℚ))
    (sortKey : String) (wc : ℕ) :
    ∀ r ∈ V050.prepareMatches obj sortKey wc,
      r.total = (r.freq : ℚ) * r.weight ∧
        r.lex = ((r.freq : ℚ) / (wc : ℚ)) * r.weight :=
  prepareMatches_fields obj sortKey wc

/-- Claim C8 witness: a concrete row of a concrete `matches` output. -/
theorem prepareMatches_row_consistency_witness :
    (⟨"a", 2, 3, 6, 3⟩ : V050.Row) ∈ V050.prepareMatches
        [("a", 2, (3 : ℚ))] "lex" 2 ∧
    ((⟨"a", 2, 3, 6, 3⟩ : V050.Row).total
        = (((⟨"a", 2, 3, 6, 3⟩ : V050.Row).freq : ℚ))
          * (⟨"a", 2, 3, 6, 3⟩ : V050.Row).weight ∧
      (⟨"a", 2, 3, 6, 3⟩ : V050.Row).lex
        = (((⟨"a", 2, 3, 6, 3⟩ : V050.Row).freq : ℚ) / ((2 : ℕ) : ℚ))
          * (⟨"a", 2, 3, 6, 3⟩ : V050.Row).weight) := by
  have hmem : (⟨"a", 2, 3, 6, 3⟩ : V050.Row) ∈ V050.prepareMatches
      [("a", 2, (3 : ℚ))] "lex" 2 := by
    norm_num [V050.prepareMatches, V050.sortByUse, V050.Row.mk.injEq]
  exact ⟨hmem, prepareMatches_row_consistency _ _ _ _ hmem⟩

/-- Claim C10: the v0.5.0 `getMatches` result has one key per lexicon
category, in order, for every token array; a category none of whose terms
occurs is present and mapped to the empty array. -/
theorem getMatches_has_all_categories (arr : List String)
    (lexicon : Lexicon) :
    ((V050.getMatches arr lexicon).map Prod.fst = lexicon.map Prod.fst) ∧
    (∀ cat data, (cat, data) ∈ lexicon →
      (∀ wd ∈ data, wd.1 ∉ arr) →
      (cat, ([] : List (String × ℕ × ℚ))) ∈ V050.getMatches arr lexicon) := by
  constructor
  · simp [V050.getMatches]
  · intro cat data hmem hnone
    have hnil : V050.categoryMatches arr data = [] := by
      rw [V050.categoryMatches, List.filterMap_eq_nil]
      intro wd hwd
      simp [hnone wd hwd]
    exact List.mem_map.mpr ⟨(cat, data), hmem, by simp [hnil]⟩

/-- Claim C10 witness: a two-category lexicon in which the second
category has no matching term still contributes its (empty) key. -/
theorem getMatches_has_all_categories_witness :
    ((("EMPTY", [("z", (1 : ℚ))])
        ∈ ([("GENDER", [("a", (2 : ℚ))]), ("EMPTY", [("z", 1)])] : Lexicon)) ∧
      (∀ wd ∈ [("z", (1 : ℚ))], wd.1 ∉ ["a"])) ∧
    ("EMPTY", ([] : List (String × ℕ × ℚ)))
      ∈ V050.getMatches ["a"] [("GENDER", [("a", 2)]), ("EMPTY", [("z", 1)])] := by
  have h1 : ("EMPTY", [("z", (1 : ℚ))])
      ∈ ([("GENDER", [("a", (2 : ℚ))]), ("EMPTY", [("z", 1)])] : Lexicon) :=
    List.mem_cons_of_mem _ (List.mem_singleton.mpr rfl)
  have h2 : ∀ wd ∈ [("z", (1 : ℚ))], wd.1 ∉ (["a"] : List String) := by
    intro wd hwd
    rcases List.mem_singleton.mp hwd with rfl
    simp
  exact ⟨⟨h1, h2⟩,
    (getMatches_has_all_categories ["a"] _).2 "EMPTY" [("z", 1)] h1 h2⟩

/-- Claim C5 counterexample: in v0.6.3, with `nGrams` explicitly `false`,
the bigram `"hello world"` is still appended to the token array — the
`matches` output contains it, and the result is identical to the
`nGrams: true` run. -/
theorem ngrams_false_still_appends :
    V063.predictGender (some ["hi"]) ["hello world"] []
        [("GENDER", [("hello world", (2 : ℚ))])]
        (some { output := some "matches", nGrams := some false })
      = .matches [⟨"hello world", 1, 2, 2⟩] ∧
    V063.predictGender (some ["hi"]) ["hello world"] []
        [("GENDER", [("hello world", (2 : ℚ))])]
        (some { output := some "matches", nGrams := some false })
      = V063.predictGender (some ["hi"]) ["hello world"] []
          [("GENDER", [("hello world", (2 : ℚ))])]
          (some { output := some "matches", nGrams := some true }) := by
  constructor
  · simp [V063.predictGender, V063.effOpts, V063.defaultOpts,
      orDefaultS, orDefaultB, orDefaultN, orDefaultQ, V063.getMatches,
      V063.getMatchesCat, indexesOf, indexesOfGo,
      V063.prepareMatches, V063.sortArrBy, V063.colVal, interceptGENDER,
      List.lookup, List.filterMap, toFixedQ]
    norm_num
  · rfl

/-- Claim C5 (amended): in v0.6.3 the `nGrams` option has no effect —
the falsy-`or` defaulting `opts.nGrams = opts.nGrams || true` coerces it
to `true` for every possible value, so bigrams and trigrams are always
appended and the result never depends on the option. -/
theorem ngrams_always_true :
    (∀ opts? : Option V063.Opts, (V063.effOpts opts?).nGrams = true) ∧
    (∀ (tokens? : Option (List String)) (bigrams trigrams : List String)
        (lexicon : Lexicon) (opts : V063.Opts),
      V063.predictGender tokens? bigrams trigrams lexicon (some opts)
        = V063.predictGender tokens? bigrams trigrams lexicon
            (some { opts with nGrams := some true })) := by
  have hng : ∀ opts? : Option V063.Opts, (V063.effOpts opts?).nGrams = true := by
    intro opts?
    rw [V063.effOpts]
    exact orDefaultB_true _
  refine ⟨hng, ?_⟩
  intro tokens? bigrams trigrams lexicon opts
  have h : V063.effOpts (some opts)
      = V063.effOpts (some { opts with nGrams := some true }) := by
    rw [V063.effOpts, V063.effOpts]
    simp [orDefaultB_true]
  rw [V063.predictGender.eq_def, V063.predictGender.eq_def, h]

/-- Claim C6: with the `sortBy` option omitted, the v0.5.0 `matches`
output is ascending in the `lex` column.  (The code literally defaults
`sortBy` to `'total'`, but with `lex = total / wordcount` row-wise and a
common nonnegative word count, sorting by `total` yields a list sorted by
`lex`.)  The `tokens ≠ []` hypothesis marks the domain on which rational
division models the JS arithmetic. -/
theorem default_sort_matches_sorted_by_lex (tokens bigrams trigrams : List String)
    (lexicon : Lexicon) (opts : V050.Opts)
    (hret : opts.ret = some "matches") (hsort : opts.sortBy = none)
    (htok : tokens ≠ []) :
    ∃ rows, V050.predictGender (some tokens) bigrams trigrams lexicon (some opts)
        = .matches rows ∧ rows.Sorted fun a b => a.lex ≤ b.lex := by
  rw [V050.predictGender]
  simp only [hret, hsort, Option.getD_some]
  norm_num [orDefaultS]
  exact ⟨_, rfl, prepare_total_sorted_lex _ _⟩

/-- Claim C6 witness: a concrete `matches`-mode call with `sortBy`
omitted. -/
theorem default_sort_matches_sorted_by_lex_witness :
    (({ ret := some "matches" } : V050.Opts).ret = some "matches" ∧
      ({ ret := some "matches" } : V050.Opts).sortBy = none ∧
      (["a", "b"] : List String) ≠ []) ∧
    ∃ rows, V050.predictGender (some ["a", "b"]) [] []
        [("GENDER", [("a", (2 : ℚ)), ("b", -4)])]
        (some { ret := some "matches" })
      = .matches rows ∧ rows.Sorted fun a b => a.lex ≤ b.lex :=
  ⟨⟨rfl, rfl, by simp⟩,
    default_sort_matches_sorted_by_lex ["a", "b"] [] []
      [("GENDER", [("a", (2 : ℚ)), ("b", -4)])] { ret := some "matches" }
      rfl rfl (by simp)⟩

/-- Claim C7 counterexample: in v1.0.0-rc.1, an unrecognized output mode
(`"bogus"`) yields the numeric gender code, which differs both from the
default mode `'gender'` (a label string) and from `'lex'` (the raw
score) — it is not "the same result as the default output mode". -/
theorem unrecognized_output_not_default :
    V1RC.formatOut [] (-4) "bogus" = .num (-1) ∧
    V1RC.formatOut [] (-4) V1RC.defaultOutput = .str "Male" ∧
    V1RC.formatOut [] (-4) "bogus" ≠ V1RC.formatOut [] (-4) V1RC.defaultOutput ∧
    V1RC.formatOut [] (-4) "bogus" ≠ V1RC.formatOut [] (-4) "lex" := by
  simp [V1RC.formatOut, V1RC.genderVal, V1RC.defaultOutput, orDefaultS]

/-- Claim C7 (amended): the v1.0.0-rc.1 output dispatch is total (no
unrecognized string can make it throw) and every output mode outside the
recognized set behaves exactly like `'number'` — the numeric gender
code — rather than like the default `'gender'` mode. -/
theorem unrecognized_output_falls_back_to_number (rows : List V050.Row)
    (lex : ℚ) (output : String) (h1 : output ≠ "matches")
    (h2 : output ≠ "lex") (h3 : output ≠ "full") (h4 : output ≠ "gender") :
    V1RC.formatOut rows lex output = V1RC.formatOut rows lex "number" := by
  simp [V1RC.formatOut, V1RC.genderVal, h1, h2, h3, h4]

/-- Claim C7 (amended) witness: the fallback at the concrete
unrecognized mode `"bogus"`. -/
theorem unrecognized_output_falls_back_to_number_witness :
    (("bogus" : String) ≠ "matches" ∧ ("bogus" : String) ≠ "lex" ∧
      ("bogus" : String) ≠ "full" ∧ ("bogus" : String) ≠ "gender") ∧
    V1RC.formatOut [] 5 "bogus" = V1RC.formatOut [] 5 "number" :=
  ⟨by decide, unrecognized_output_falls_back_to_number [] 5 "bogus"
    (by decide) (by decide) (by decide) (by decide)⟩

/-- Claim C9: v0.6.3 defaults its options with falsy-`or` assignment, so
an explicitly configured falsy value is replaced by the default:
`max = 0` behaves as `max = 99`, `min = 0` as `min = -99`, and
`places = 0` as `places = 16`, for every input. -/
theorem falsy_options_replaced_by_defaults (tokens? : Option (List String))
    (bigrams trigrams : List String) (lexicon : Lexicon) (opts : V063.Opts) :
    (V063.predictGender tokens? bigrams trigrams lexicon
        (some { opts with max := some 0 })
      = V063.predictGender tokens? bigrams trigrams lexicon
        (some { opts with max := some 99 })) ∧
    (V063.predictGender tokens? bigrams trigrams lexicon
        (some { opts with min := some 0 })
      = V063.predictGender tokens? bigrams trigrams lexicon
        (some { opts with min := some (-99) })) ∧
    (V063.predictGender tokens? bigrams trigrams lexicon
        (some { opts with places := some 0 })
      = V063.predictGender tokens? bigrams trigrams lexicon
        (some { opts with places := some 16 })) := by
  have hmax : V063.effOpts (some { opts with max := some 0 })
      = V063.effOpts (some { opts with max := some 99 }) := by
    rw [V063.effOpts, V063.effOpts]
    norm_num [orDefaultQ]
  have hmin : V063.effOpts (some { opts with min := some 0 })
      = V063.effOpts (some { opts with min := some (-99) }) := by
    rw [V063.effOpts, V063.effOpts]
    norm_num [orDefaultQ]
  have hplaces : V063.effOpts (some { opts with places := some 0 })
      = V063.effOpts (some { opts with places := some 16 }) := by
    rw [V063.effOpts, V063.effOpts]
    norm_num [orDefaultN]
  exact ⟨by rw [V063.predictGender.eq_def, V063.predictGender.eq_def, hmax],
    by rw [V063.predictGender.eq_def, V063.predictGender.eq_def, hmin],
    by rw [V063.predictGender.eq_def, V063.predictGender.eq_def, hplaces]⟩

end PredictGender
